import Mathlib

/-!
# Verification of the browser-ai-backend task lifecycle and broadcast mechanism

Shallow embedding of `src/main.py`: the in-memory task store, the task
executor state machine, the WebSocket connection manager, and the HTTP
handlers (`POST /tasks`, `GET /tasks/{id}`, `GET /health`).

Modelling conventions:
* Python's `TaskResponse` pydantic model becomes the structure `TaskResponse`;
  the `status` field stays a `String` as in the source.
* The module-level dict `tasks: Dict[str, TaskResponse]` becomes an
  insertion-ordered association list `TaskStore` (Python dicts preserve
  insertion order, and the program only ever appends fresh keys).
* Python exceptions become `Except` values.  A function whose Python body
  catches every exception (`broadcast`, `execute_task`) is total here; one
  whose body can re-raise (`create_task`, `get_task`) returns
  `Except HTTPException _`.
* The external agent call `browser.run(...)` is the executor's only failure
  point; its outcome is a parameter `agent : Except String String`
  (error message, or result text).
* In-place mutation of a `TaskResponse` object is modelled by listing the
  successive values of the record (`ExecResult.states`), one entry per
  Python assignment statement, starting from the value at executor entry.
-/

namespace BrowserAI

/-- The `TaskResponse` pydantic model of `src/main.py`:
`id`, `status` (a plain string, as in Python), optional `result`, optional
`error` (both default `None`). -/
structure TaskResponse where
  id : String
  status : String
  result : Option String := none
  error : Option String := none
deriving Repr, DecidableEq

/-- The `Context` pydantic model: the page the task refers to. -/
structure Context where
  url : String
  title : String
deriving Repr, DecidableEq

/-- The `TaskRequest` pydantic model: body of `POST /tasks`. -/
structure TaskRequest where
  task : String
  context : Context
deriving Repr, DecidableEq

/-- FastAPI's `HTTPException(status_code=..., detail=...)`. -/
structure HTTPException where
  status_code : Nat
  detail : String
deriving Repr, DecidableEq

/-- Starlette renders an `HTTPException` as `f"{status_code}: {detail}"`;
this is the `str(e)` the handlers interpolate into a re-raised exception. -/
def HTTPException.toStr (e : HTTPException) : String :=
  Nat.repr e.status_code ++ ": " ++ e.detail

/-- The module-level store `tasks: Dict[str, TaskResponse]`, as an
insertion-ordered association list. -/
abbrev TaskStore := List (String × TaskResponse)

/-- Dict lookup `tasks.get(task_id)` / `tasks[task_id]`. -/
def lookupTask (tasks : TaskStore) (task_id : String) : Option TaskResponse :=
  match tasks.find? (fun p => p.1 = task_id) with
  | some p => some p.2
  | none => none

/-- A broadcast frame: the JSON dict sent over every WebSocket, as an
ordered list of string key/value pairs. -/
abbrev Frame := List (String × String)

/-! ## ConnectionManager (`src/main.py` lines 72-106)

The manager's state is its `active_connections` list.  The client type is a
parameter `C` (a WebSocket handle); whether `send_json` raises for a given
client during one broadcast pass is a parameter `sendFails : C → Bool`. -/

/-- `ConnectionManager.disconnect`: `self.active_connections.remove(websocket)`,
with `except ValueError` making removal of an absent client a no-op.
`List.erase` removes the first occurrence and is the identity when the
element is absent, which is exactly that behaviour. -/
def disconnect {C : Type} [DecidableEq C] (active_connections : List C) (websocket : C) : List C :=
  active_connections.erase websocket

/-- The `for connection in self.active_connections` loop of
`ConnectionManager.broadcast`: tries `send_json` on every connection in
order; a connection whose send raises is appended to the `disconnected`
list and the loop continues.  Returns (connections attempted, in order;
`disconnected` list, in order). -/
def broadcastPass {C : Type} (sendFails : C → Bool) (active_connections : List C) :
    List C × List C :=
  active_connections.foldl
    (fun acc connection =>
      if sendFails connection then (acc.1 ++ [connection], acc.2 ++ [connection])
      else (acc.1 ++ [connection], acc.2))
    ([], [])

/-- `ConnectionManager.broadcast`: run the send pass over every registered
connection, then call `disconnect` on each collected failed connection.
Every exception inside is caught, so the function is total: it returns
(connections attempted, the new `active_connections` list) and never
propagates a failure to its caller. -/
def broadcast {C : Type} [DecidableEq C] (sendFails : C → Bool) (active_connections : List C) :
    List C × List C :=
  let p := broadcastPass sendFails active_connections
  (p.1, p.2.foldl (fun conns connection => disconnect conns connection) active_connections)

/-! ## POST /tasks (`create_task`, lines 130-147)

The handler first awaits `initialize_browser()` (outcome: parameter
`browser_init`); on success it allocates `task_id = str(len(tasks) + 1)`,
inserts the pending record, spawns `execute_task` in the background with
`asyncio.create_task`, and returns the record.  Any exception is re-raised
as `HTTPException(500, str(e))`. -/

/-- Result of one `POST /tasks` call: the store afterwards, the HTTP
response (record or 500 error), and the `(task_id, request)` arguments of
the `execute_task` coroutines spawned by the call via
`asyncio.create_task`. -/
structure CreateResult where
  tasks : TaskStore
  response : Except HTTPException TaskResponse
  spawned : List (String × TaskRequest)
deriving Repr

/-- The `create_task` handler body. -/
def create_task (browser_init : Except String Unit) (request : TaskRequest)
    (tasks : TaskStore) : CreateResult :=
  match browser_init with
  | .error e => { tasks := tasks, response := .error ⟨500, e⟩, spawned := [] }
  | .ok _ =>
    let task_id := Nat.repr (tasks.length + 1)
    let task : TaskResponse := { id := task_id, status := "pending" }
    { tasks := tasks ++ [(task_id, task)],
      response := .ok task,
      spawned := [(task_id, request)] }

/-- `createN reqs n`: the store after `n` sequential successful
`POST /tasks` calls starting from the empty store, the `k`-th call carrying
request body `reqs k`. -/
def createN (reqs : Nat → TaskRequest) : Nat → TaskStore
  | 0 => []
  | n + 1 => (create_task (.ok ()) (reqs n) (createN reqs n)).tasks

/-! ## The task executor (`execute_task`, lines 149-183)

The body mutates the looked-up record and broadcasts after each phase; its
`try` wraps everything after the lookup, and the `except` clause records the
failure instead of re-raising, so the coroutine never propagates an
exception.  The only statement that can raise is the agent call
`await browser.run(task=request.task, url=request.context.url)`; the
external agent is the parameter `run`, mapping (task description, url) to
either the result text or an error description. -/

/-- What one executor run did: the successive values of its task record
(one entry per assignment, starting from the entry value), the frames it
broadcast, and the final record value. -/
structure ExecResult where
  states : List TaskResponse
  broadcasts : List Frame
  final : TaskResponse
deriving Repr, DecidableEq

/-- The `execute_task` coroutine body, acting on the record `task` found
under `task_id`.  Success path: `processing` → `completed` + `result`;
agent failure: caught, `failed` + `error` recorded and broadcast.  The
function is total — no branch re-raises. -/
def execute_task (run : String → String → Except String String) (task_id : String)
    (request : TaskRequest) (task : TaskResponse) : ExecResult :=
  let t1 := { task with status := "processing" }
  let m1 : Frame := [("type", "status"), ("task_id", task_id), ("status", "processing")]
  match run request.task request.context.url with
  | .ok result =>
    let t2 := { t1 with status := "completed" }
    let t3 := { t2 with result := some result }
    { states := [task, t1, t2, t3],
      broadcasts := [m1,
        [("type", "result"), ("task_id", task_id), ("status", "completed"), ("result", result)]],
      final := t3 }
  | .error e =>
    let t2 := { t1 with status := "failed" }
    let t3 := { t2 with error := some e }
    { states := [task, t1, t2, t3],
      broadcasts := [m1,
        [("type", "error"), ("task_id", task_id), ("status", "failed"), ("error", e)]],
      final := t3 }

/-! ## GET /tasks/{id} (`get_task`, lines 185-195) -/

/-- The `try` body of `get_task`: `tasks.get(task_id)`, raising
`HTTPException(404, "Task not found")` when absent, returning the record
when present. -/
def get_task_body (tasks : TaskStore) (task_id : String) : Except HTTPException TaskResponse :=
  match lookupTask tasks task_id with
  | none => .error ⟨404, "Task not found"⟩
  | some task => .ok task

/-- The whole `get_task` handler: the blanket `except Exception as e` also
catches the handler's own `HTTPException(404)` and re-raises it as
`HTTPException(500, str(e))`. -/
def get_task (tasks : TaskStore) (task_id : String) : Except HTTPException TaskResponse :=
  match get_task_body tasks task_id with
  | .ok task => .ok task
  | .error e => .error ⟨500, HTTPException.toStr e⟩

/-! ## GET /health (`health_check`, lines 125-128) -/

/-- The `health_check` handler returns the literal dict
`{"status": "healthy"}`.  It takes no argument: it touches neither the
browser/agent singleton nor the store. -/
def health_check : Frame := [("status", "healthy")]

/-! ## Store evolution

Every mutation of the store over the process lifetime: a `POST /tasks`
call (append of a fresh key on success, no-op on init failure), or an
executor's in-place record mutation (value update at an existing key;
`task.status = ...` never touches the dict's key set).  No handler ever
deletes a key. -/

/-- One store-mutating event. -/
inductive Op where
  | createOp (browser_init : Except String Unit) (request : TaskRequest)
  | updateOp (task_id : String) (task : TaskResponse)
deriving Repr

/-- Apply one event to the store. -/
def applyOp (tasks : TaskStore) : Op → TaskStore
  | .createOp browser_init request => (create_task browser_init request tasks).tasks
  | .updateOp task_id task =>
    tasks.map (fun p => if p.1 = task_id then (p.1, task) else p)

/-- Apply a sequence of events to the store. -/
def applyOps (tasks : TaskStore) (ops : List Op) : TaskStore :=
  ops.foldl applyOp tasks

/-- The allowed status transitions of the spec's state machine, plus
stuttering (consecutive assignment steps that leave `status` unchanged). -/
def statusForward (a b : String) : Bool :=
  (a == b) ||
  (a == "pending" && b == "processing") ||
  (a == "processing" && (b == "completed" || b == "failed"))

/-! ## Decimal rendering of task ids

`str(len(tasks) + 1)` in Python is `Nat.repr` here.  To reason about id
uniqueness we relate `Nat.repr` to a structurally recursive digit list and
show the rendering is injective. -/

/-- The decimal digit characters of `n`, most significant first; equals
`Nat.toDigits 10 n` (shown below). -/
def decChars (n : Nat) : List Char :=
  if _h : n < 10 then [Nat.digitChar n]
  else decChars (n / 10) ++ [Nat.digitChar (n % 10)]
decreasing_by exact Nat.div_lt_self (by omega) (by omega)

/-- Numeric value of a decimal digit character (`'0'` has code 48). -/
def charVal (c : Char) : Nat := c.toNat - 48

/-- Read a digit string back as a number, most significant digit first. -/
def ofDecChars (cs : List Char) : Nat :=
  cs.foldl (fun a c => 10 * a + charVal c) 0

/-! # Theorems -/

theorem charVal_digitChar {d : Nat} (h : d < 10) : charVal (Nat.digitChar d) = d := by
  interval_cases d <;> decide

theorem decChars_eq_of_lt (n : Nat) (h : n < 10) : decChars n = [Nat.digitChar n] := by
  rw [decChars.eq_def, dif_pos h]

theorem decChars_eq_of_ge (n : Nat) (h : ¬ n < 10) :
    decChars n = decChars (n / 10) ++ [Nat.digitChar (n % 10)] := by
  rw [decChars.eq_def, dif_neg h]

theorem toDigitsCore_eq_decChars :
    ∀ (fuel n : Nat) (ds : List Char), n < fuel →
      Nat.toDigitsCore 10 fuel n ds = decChars n ++ ds := by
  intro fuel
  induction fuel with
  | zero => intro n ds h; omega
  | succ f ih =>
    intro n ds h
    simp only [Nat.toDigitsCore]
    by_cases h10 : n / 10 = 0
    · have hn : n < 10 := by omega
      rw [if_pos h10, decChars_eq_of_lt n hn, Nat.mod_eq_of_lt hn]
      rfl
    · rw [if_neg h10]
      have hlt : n / 10 < f := by
        have h1 : n / 10 < n := Nat.div_lt_self (by omega) (by omega)
        omega
      rw [ih (n / 10) (Nat.digitChar (n % 10) :: ds) hlt,
        decChars_eq_of_ge n (by omega)]
      simp

theorem toDigits_eq_decChars (n : Nat) : Nat.toDigits 10 n = decChars n := by
  unfold Nat.toDigits
  rw [toDigitsCore_eq_decChars (n + 1) n [] (Nat.lt_succ_self n), List.append_nil]

theorem foldl_ofDec_decChars :
    ∀ (n a : Nat),
      List.foldl (fun a c => 10 * a + charVal c) a (decChars n) =
        a * 10 ^ (decChars n).length + n := by
  intro n
  induction n using Nat.strong_induction_on with
  | _ n ih =>
    intro a
    by_cases h : n < 10
    · rw [decChars_eq_of_lt n h]
      simp [List.foldl, charVal_digitChar h]
      omega
    · rw [decChars_eq_of_ge n h, List.foldl_append,
        ih (n / 10) (Nat.div_lt_self (by omega) (by omega)) a]
      simp only [List.foldl, List.length_append, List.length_cons, List.length_nil,
        List.length_singleton]
      rw [charVal_digitChar (Nat.mod_lt n (by omega))]
      have hpow : a * 10 ^ ((decChars (n / 10)).length + 1) =
          10 * (a * 10 ^ (decChars (n / 10)).length) := by ring
      rw [hpow]
      generalize a * 10 ^ (decChars (n / 10)).length = t
      omega

theorem ofDecChars_decChars (n : Nat) : ofDecChars (decChars n) = n := by
  unfold ofDecChars
  rw [foldl_ofDec_decChars n 0]
  simp

/-- Decimal rendering of naturals is injective: distinct counters always
yield distinct task-id strings. -/
theorem repr_injective : Function.Injective Nat.repr := by
  intro m n h
  have hd : Nat.toDigits 10 m = Nat.toDigits 10 n := by
    have h' := h
    unfold Nat.repr at h'
    exact List.asString_inj.mp h'
  rw [toDigits_eq_decChars, toDigits_eq_decChars] at hd
  have h2 := congrArg ofDecChars hd
  rwa [ofDecChars_decChars, ofDecChars_decChars] at h2

/-! ## Store lemmas -/

theorem lookupTask_eq (tasks : TaskStore) (task_id : String) :
    lookupTask tasks task_id = (tasks.find? (fun p => p.1 = task_id)).map Prod.snd := by
  unfold lookupTask
  cases tasks.find? (fun p => p.1 = task_id) <;> rfl

theorem lookupTask_isSome_iff (tasks : TaskStore) (task_id : String) :
    (lookupTask tasks task_id).isSome = true ↔ task_id ∈ tasks.map Prod.fst := by
  rw [lookupTask_eq]
  simp [List.find?_isSome, List.mem_map]

theorem lookupTask_append_fresh (tasks : TaskStore) (k : String) (v : TaskResponse)
    (h : k ∉ tasks.map Prod.fst) : lookupTask (tasks ++ [(k, v)]) k = some v := by
  rw [lookupTask_eq, List.find?_append]
  have h1 : tasks.find? (fun p => p.1 = k) = none := by
    rw [List.find?_eq_none]
    intro x hx
    simp only [decide_eq_true_eq]
    intro hk
    exact h (List.mem_map.mpr ⟨x, hx, hk⟩)
  rw [h1]
  simp

theorem createN_length (reqs : Nat → TaskRequest) (n : Nat) : (createN reqs n).length = n := by
  induction n with
  | zero => rfl
  | succ n ih => simp [createN, create_task, ih]

theorem createN_succ (reqs : Nat → TaskRequest) (n : Nat) :
    createN reqs (n + 1) =
      createN reqs n ++
        [(Nat.repr (n + 1), { id := Nat.repr (n + 1), status := "pending" })] := by
  show (create_task (.ok ()) (reqs n) (createN reqs n)).tasks = _
  simp [create_task, createN_length]

theorem createN_ids (reqs : Nat → TaskRequest) (n : Nat) :
    (createN reqs n).map Prod.fst = (List.range n).map (fun i => Nat.repr (i + 1)) := by
  induction n with
  | zero => rfl
  | succ n ih => rw [createN_succ, List.range_succ]; simp [ih]

theorem succ_repr_injective : Function.Injective (fun i : Nat => Nat.repr (i + 1)) := by
  intro i j h
  have h2 := repr_injective h
  omega

theorem repr_succ_not_mem_createN (reqs : Nat → TaskRequest) (n : Nat) :
    Nat.repr (n + 1) ∉ (createN reqs n).map Prod.fst := by
  rw [createN_ids]
  intro hmem
  obtain ⟨i, hi, heq⟩ := List.mem_map.mp hmem
  have h2 := repr_injective heq
  have h3 := List.mem_range.mp hi
  omega

/-! ## Keys of the store never shrink -/

theorem applyOp_keys_mono (tasks : TaskStore) (op : Op) (task_id : String)
    (h : task_id ∈ tasks.map Prod.fst) : task_id ∈ (applyOp tasks op).map Prod.fst := by
  cases op with
  | createOp browser_init request =>
    cases browser_init with
    | error e => exact h
    | ok u => simp only [applyOp, create_task, List.map_append, List.mem_append]; exact Or.inl h
  | updateOp tid t =>
    simp only [applyOp, List.map_map]
    have heq : ∀ p ∈ tasks,
        (Prod.fst ∘ fun p : String × TaskResponse =>
          if p.1 = tid then (p.1, t) else p) p = Prod.fst p := by
      intro p _
      by_cases hp : p.1 = tid <;> simp [hp]
    rw [List.map_congr_left heq]
    exact h

theorem applyOps_keys_mono (tasks : TaskStore) (ops : List Op) (task_id : String)
    (h : task_id ∈ tasks.map Prod.fst) : task_id ∈ (applyOps tasks ops).map Prod.fst := by
  induction ops generalizing tasks with
  | nil => exact h
  | cons op rest ih => exact ih _ (applyOp_keys_mono tasks op task_id h)

/-! ## Claim theorems (store and handlers) -/

/-- **C3.** Creating `N` tasks in sequence yields ids exactly `"1"`..`"N"` in
creation order; the ids are unique over the store's lifetime; the store has
size `N` afterwards, and the id issued next is the rendered counter
`store size + 1`. -/
theorem create_task_ids_sequential (reqs : Nat → TaskRequest) (n : Nat) :
    (createN reqs n).map Prod.fst = (List.range n).map (fun i => Nat.repr (i + 1)) ∧
    ((createN reqs n).map Prod.fst).Nodup ∧
    (createN reqs n).length = n ∧
    (create_task (.ok ()) (reqs n) (createN reqs n)).spawned =
      [(Nat.repr ((createN reqs n).length + 1), reqs n)] := by
  refine ⟨createN_ids reqs n, ?_, createN_length reqs n, ?_⟩
  · rw [createN_ids reqs n]
    exact (List.nodup_range n).map succ_repr_injective
  · simp [create_task]

/-- **C7.** A successful `POST /tasks` call on any reachable store allocates
the fresh id `str(size + 1)`, inserts a record with status `pending` and no
`result`/`error`, spawns exactly one executor for that id, and the HTTP
response is that still-`pending` record (the executor's effects are not part
of the handler's return value). -/
theorem post_tasks_returns_pending_record (reqs : Nat → TaskRequest) (request : TaskRequest)
    (n : Nat) :
    (create_task (.ok ()) request (createN reqs n)).response =
      .ok { id := Nat.repr (n + 1), status := "pending", result := none, error := none } ∧
    Nat.repr (n + 1) ∉ (createN reqs n).map Prod.fst ∧
    (create_task (.ok ()) request (createN reqs n)).tasks =
      createN reqs n ++
        [(Nat.repr (n + 1), { id := Nat.repr (n + 1), status := "pending" })] ∧
    (create_task (.ok ()) request (createN reqs n)).spawned =
      [(Nat.repr (n + 1), request)] ∧
    lookupTask (create_task (.ok ()) request (createN reqs n)).tasks (Nat.repr (n + 1)) =
      some { id := Nat.repr (n + 1), status := "pending" } := by
  refine ⟨?_, repr_succ_not_mem_createN reqs n, ?_, ?_, ?_⟩
  · simp [create_task, createN_length]
  · simp [create_task, createN_length]
  · simp [create_task, createN_length]
  · have h1 : (create_task (.ok ()) request (createN reqs n)).tasks =
        createN reqs n ++
          [(Nat.repr (n + 1), { id := Nat.repr (n + 1), status := "pending" })] := by
      simp [create_task, createN_length]
    rw [h1]
    exact lookupTask_append_fresh (createN reqs n) _ _ (repr_succ_not_mem_createN reqs n)

/-- **C9.** If `initialize_browser()` raises at the start of `POST /tasks`,
the handler's `except` clause answers `HTTPException(500, str(e))`: the
store is unchanged, no id is consumed, and no executor is spawned. -/
theorem create_task_init_failure (e : String) (request : TaskRequest) (tasks : TaskStore) :
    create_task (.error e) request tasks =
      { tasks := tasks,
        response := .error { status_code := 500, detail := e },
        spawned := [] } := by
  rfl

/-- **C10.** The unguarded `tasks[task_id]` at the top of `execute_task`
never fails: the pending record is inserted before the executor is spawned,
and every later store event (task creations, executors rewriting their own
record in place) preserves the key, so the lookup always succeeds. -/
theorem executor_lookup_never_fails (request : TaskRequest) (tasks : TaskStore)
    (ops : List Op) :
    (lookupTask (applyOps (create_task (.ok ()) request tasks).tasks ops)
        (Nat.repr (tasks.length + 1))).isSome = true := by
  rw [lookupTask_isSome_iff]
  apply applyOps_keys_mono
  simp [create_task]

/-- **C4 (observed behaviour).** For an id that was never issued, `get_task`
does *not* answer a 404: the handler's own `HTTPException(404, "Task not
found")` is caught by its blanket `except Exception` clause and re-raised as
`HTTPException(500, str(e))`.  Evaluated at the concrete failing input
(empty store, id `"1"`). -/
theorem get_task_unknown_id_returns_500 :
    get_task [] "1" = .error { status_code := 500, detail := "404: Task not found" } := by
  rfl

/-- **C8 (counterexample).** The claim says `GET /health` returns an object
with fields `status`, `service` and `timestamp`; the handler's literal
response `{"status": "healthy"}` has neither a `service` nor a `timestamp`
field. -/
theorem health_check_missing_service_timestamp :
    "service" ∉ health_check.map Prod.fst ∧ "timestamp" ∉ health_check.map Prod.fst := by
  decide

/-- **C8 (amended).** Every call to `GET /health` succeeds and returns
exactly `{status: healthy}` — the `status` field with value `healthy` and no
other field — and the handler consults neither the agent nor the store (it
reads no state at all). -/
theorem health_check_returns_healthy_only :
    health_check = [("status", "healthy")] ∧
    health_check.find? (fun p => p.1 = "status") = some ("status", "healthy") ∧
    health_check.map Prod.fst = ["status"] := by
  refine ⟨rfl, by decide, rfl⟩

/-! ## Claim theorems (executor) -/

/-- **C1.** For a record as created by `POST /tasks` (status `pending`), the
executor's successive status values are exactly
`pending, processing, completed, completed` (success) or
`pending, processing, failed, failed` (agent failure): every adjacent step
is a stutter or a forward move of the state machine
`pending → processing → {completed | failed}`, the trace starts at
`pending`, and a terminal status is only ever reached from `processing`. -/
theorem executor_status_path (run : String → String → Except String String)
    (task_id : String) (request : TaskRequest) :
    let sts := (execute_task run task_id request
      { id := task_id, status := "pending" }).states.map TaskResponse.status
    (sts = ["pending", "processing", "completed", "completed"] ∨
      sts = ["pending", "processing", "failed", "failed"]) ∧
    List.Chain' (fun a b => statusForward a b = true) sts ∧
    sts.head? = some "pending" := by
  cases hrun : run request.task request.context.url <;>
    simp [execute_task, hrun, statusForward, List.chain'_cons]

/-- **C2.** After the executor finishes, `result` is populated iff the final
status is `completed` and `error` iff it is `failed`; at no point in the
run are both populated, and a record whose status is still `pending` or
`processing` has neither field populated. -/
theorem executor_result_error_fields (run : String → String → Except String String)
    (task_id : String) (request : TaskRequest) :
    let r := execute_task run task_id request { id := task_id, status := "pending" }
    ((r.final.result ≠ none) ↔ r.final.status = "completed") ∧
    ((r.final.error ≠ none) ↔ r.final.status = "failed") ∧
    (∀ s ∈ r.states, ¬(s.result ≠ none ∧ s.error ≠ none)) ∧
    (∀ s ∈ r.states, s.status = "pending" ∨ s.status = "processing" →
      s.result = none ∧ s.error = none) := by
  cases hrun : run request.task request.context.url <;> simp [execute_task, hrun]

/-- **C6.** When the agent call raises, the executor's `except` clause
records the failure instead of re-raising: the final record has status
`failed` with `error` set to the failure's description (and no `result`),
and a frame `{type: error, task_id, status: failed, error}` is broadcast.
`execute_task` is total here because every branch of the Python body is
inside its `try`/`except`, so no error can reach the `POST /tasks` caller,
who already received the `pending` response. -/
theorem executor_agent_failure_recorded (run : String → String → Except String String)
    (task_id e : String) (request : TaskRequest)
    (h : run request.task request.context.url = .error e) :
    let r := execute_task run task_id request { id := task_id, status := "pending" }
    r.final.status = "failed" ∧
    r.final.error = some e ∧
    r.final.result = none ∧
    [("type", "error"), ("task_id", task_id), ("status", "failed"), ("error", e)]
      ∈ r.broadcasts := by
  simp [execute_task, h]

/-- Witness for `executor_agent_failure_recorded`: a concrete agent that
always raises with description `"boom"`, on the example request of the
spec's end-to-end scenario. -/
theorem executor_agent_failure_recorded_witness :
    (fun _ _ => (Except.error "boom" : Except String String)) "go to example.com"
        "https://example.com" = Except.error "boom" ∧
    (let r := execute_task (fun _ _ => (Except.error "boom" : Except String String)) "1"
      { task := "go to example.com",
        context := { url := "https://example.com", title := "" } }
      { id := "1", status := "pending" }
    r.final.status = "failed" ∧
    r.final.error = some "boom" ∧
    r.final.result = none ∧
    [("type", "error"), ("task_id", "1"), ("status", "failed"), ("error", "boom")]
      ∈ r.broadcasts) :=
  ⟨rfl,
    executor_agent_failure_recorded (fun _ _ => Except.error "boom") "1" "boom"
      { task := "go to example.com",
        context := { url := "https://example.com", title := "" } }
      rfl⟩

/-! ## Claim theorems (broadcast) -/

theorem broadcastPass_eq {C : Type} (sendFails : C → Bool) (active : List C) :
    broadcastPass sendFails active = (active, active.filter sendFails) := by
  suffices h : ∀ acc : List C × List C,
      active.foldl
        (fun acc connection =>
          if sendFails connection then (acc.1 ++ [connection], acc.2 ++ [connection])
          else (acc.1 ++ [connection], acc.2)) acc
        = (acc.1 ++ active, acc.2 ++ active.filter sendFails) by
    have h0 := h ([], [])
    simpa [broadcastPass] using h0
  intro acc
  induction active generalizing acc with
  | nil => simp
  | cons c rest ih =>
    by_cases hc : sendFails c <;>
      simp [List.foldl_cons, hc, ih, List.filter_cons, List.append_assoc]

theorem broadcast_spec {C : Type} [DecidableEq C] (sendFails : C → Bool) (active : List C) :
    broadcast sendFails active = (active, active.diff (active.filter sendFails)) := by
  unfold broadcast
  rw [broadcastPass_eq]
  show (active, List.foldl _ active _) = _
  rw [show (fun (conns : List C) connection => disconnect conns connection) = List.erase from
    rfl]
  rw [← List.diff_eq_foldl]

/-- **C5.** One broadcast pass attempts delivery to every registered client
in order, even when some sends fail; the failed clients are collected
during the pass (each exactly once, in a duplicate-free connection list)
and removed from the connection set exactly once after the pass; clients
whose send succeeded stay registered.  `broadcast` catches every send
failure and `disconnect` tolerates absent clients, so the call never raises
to its caller (its embedding is a total function). -/
theorem broadcast_failure_isolation {C : Type} [DecidableEq C] (sendFails : C → Bool)
    (active : List C) (h : active.Nodup) :
    (broadcast sendFails active).1 = active ∧
    (broadcastPass sendFails active).2 = active.filter sendFails ∧
    (∀ c ∈ active, sendFails c = true →
      List.count c (broadcastPass sendFails active).2 = 1 ∧
      c ∉ (broadcast sendFails active).2) ∧
    (∀ c ∈ active, sendFails c = false → c ∈ (broadcast sendFails active).2) := by
  rw [broadcast_spec, broadcastPass_eq]
  refine ⟨rfl, rfl, ?_, ?_⟩
  · intro c hc hf
    constructor
    · have hcf : c ∈ active.filter sendFails := List.mem_filter.mpr ⟨hc, hf⟩
      exact List.count_eq_one_of_mem (h.filter sendFails) hcf
    · intro hmem
      have h2 := (h.mem_diff_iff).mp hmem
      exact h2.2 (List.mem_filter.mpr ⟨hc, hf⟩)
  · intro c hc hf
    refine (h.mem_diff_iff).mpr ⟨hc, ?_⟩
    intro hin
    have h2 := (List.mem_filter.mp hin).2
    rw [hf] at h2
    exact Bool.false_ne_true h2

/-- Witness for `broadcast_failure_isolation` at the concrete connection
list `[1, 2, 3]` where only client `2`'s send fails. -/
theorem broadcast_failure_isolation_witness :
    ([1, 2, 3] : List Nat).Nodup ∧
    ((broadcast (fun c => c == 2) [1, 2, 3]).1 = [1, 2, 3] ∧
     (broadcastPass (fun c => c == 2) [1, 2, 3]).2 =
       List.filter (fun c => c == 2) [1, 2, 3] ∧
     (∀ c ∈ ([1, 2, 3] : List Nat), (fun c => c == 2) c = true →
       List.count c (broadcastPass (fun c => c == 2) [1, 2, 3]).2 = 1 ∧
       c ∉ (broadcast (fun c => c == 2) [1, 2, 3]).2) ∧
     (∀ c ∈ ([1, 2, 3] : List Nat), (fun c => c == 2) c = false →
       c ∈ (broadcast (fun c => c == 2) [1, 2, 3]).2)) :=
  ⟨by decide, broadcast_failure_isolation (fun c => c == 2) [1, 2, 3] (by decide)⟩

end BrowserAI
